import Mathlib

/-!
Verification development for the knewit quiz-server session engine.

The definitions below are a shallow embedding of `src/server/quiz_types.py`
(`Player`, `Quiz`, `Question`, `QuizSession` and its methods) and of the
relevant handlers of `src/server/app.py` (inbound-message liveness refresh,
`pong` handling, `broadcast`, the `player.kick` handler).

Python dictionaries are modelled as insertion-ordered association lists with
unique keys (`dictFind?` / `dictInsert` / `dictErase` / `dictSetdefault`).
Python ints are `Int`, Python floats (timestamps, latencies, elapsed times)
are `ℚ`, and WebSocket handles are abstract `Nat` identifiers.
-/

set_option maxHeartbeats 1000000

/-! ### Association lists modelling Python dicts -/

def dictFind? {α β : Type} [DecidableEq α] (l : List (α × β)) (k : α) : Option β :=
  match l with
  | [] => none
  | kv :: rest => if kv.1 = k then some kv.2 else dictFind? rest k

def dictInsert {α β : Type} [DecidableEq α] (l : List (α × β)) (k : α) (v : β) :
    List (α × β) :=
  match l with
  | [] => [(k, v)]
  | kv :: rest => if kv.1 = k then (k, v) :: rest else kv :: dictInsert rest k v

def dictErase {α β : Type} [DecidableEq α] (l : List (α × β)) (k : α) : List (α × β) :=
  l.filter (fun kv => kv.1 ≠ k)

def dictSetdefault {α β : Type} [DecidableEq α] (l : List (α × β)) (k : α) (v : β) :
    List (α × β) :=
  match dictFind? l k with
  | some _ => l
  | none => l ++ [(k, v)]

/-! ### Data model (from `src/server/quiz_types.py`) -/

/-- `QuizState` enum: lobby / active / finished. -/
inductive QuizState where
  | LOBBY
  | ACTIVE
  | FINISHED
  deriving DecidableEq, Repr

/-- `Question` dataclass: prompt, options, correct option index, id. -/
structure Question where
  prompt : String
  options : List String
  correct_idx : Int
  id : String
  deriving DecidableEq, Repr

/-- `Quiz` dataclass: title plus ordered questions. -/
structure Quiz where
  title : String
  questions : List Question
  quiz_id : String
  deriving DecidableEq, Repr

/-- `Player` dataclass. Scores are Python ints in this code; timestamps and
latency are floats, modelled as `ℚ`. -/
structure Player where
  player_id : String
  score : Int := 0
  answered_current : Bool := false
  round_scores : List Int := []
  last_pong : Option ℚ := none
  latency_ms : Option ℚ := none
  last_seen : Option ℚ := none
  is_muted : Bool := false
  status : String := "active"
  deriving DecidableEq, Repr

/-- Initial `answer_counts` dict `{0: 0, 1: 0, 2: 0, 3: 0}`. -/
def initAnswerCounts : List (Int × Int) := [(0, 0), (1, 0), (2, 0), (3, 0)]

/-- `QuizSession` dataclass. WebSocket handles are abstract `Nat` ids. -/
structure QuizSession where
  id : String
  host_id : String
  state : QuizState := QuizState.LOBBY
  players : List (String × Player) := []
  quiz : Option Quiz := none
  password : Option String := none
  current_question_idx : Int := -1
  answer_counts : List (Int × Int) := initAnswerCounts
  answer_log : List (Int × List (String × Int)) := []
  answer_time_log : List (Int × List (String × ℚ)) := []
  connections : List (String × Nat) := []
  deriving DecidableEq, Repr

namespace QuizSession

/-- `QuizSession.add_player`: returns `None` if the name is taken, else creates
the player and registers the connection. -/
def add_player (s : QuizSession) (player_id : String) (ws : Nat) :
    Option Player × QuizSession :=
  if s.players.any (fun kv => kv.2.player_id = player_id) then
    (none, s)
  else
    let player : Player := { player_id := player_id }
    (some player,
      { s with
        players := dictInsert s.players player_id player
        connections := dictInsert s.connections player_id ws })

/-- `QuizSession.remove_player`: pops the player and its connection. -/
def remove_player (s : QuizSession) (player_id : String) : QuizSession :=
  { s with
    players := dictErase s.players player_id
    connections := dictErase s.connections player_id }

/-- `QuizSession.load_quiz`: loads a quiz and resets per-quiz state.
Note that `round_scores` and `answer_time_log` are not touched. -/
def load_quiz (s : QuizSession) (quiz : Quiz) : QuizSession :=
  { s with
    quiz := some quiz
    current_question_idx := -1
    answer_counts := initAnswerCounts
    answer_log := []
    state := QuizState.LOBBY
    players := s.players.map (fun kv =>
      (kv.1, { kv.2 with score := 0, answered_current := false })) }

/-- `QuizSession.start_quiz`: fails when no quiz is loaded or it has no
questions; otherwise moves to ACTIVE (index untouched). -/
def start_quiz (s : QuizSession) : Bool × QuizSession :=
  match s.quiz with
  | none => (false, s)
  | some quiz =>
    if quiz.questions.length = 0 then (false, s)
    else (true, { s with state := QuizState.ACTIVE })

/-- `QuizSession.get_current_question`. -/
def get_current_question (s : QuizSession) : Option Question :=
  match s.quiz with
  | none => none
  | some quiz =>
    if s.current_question_idx < 0 then none
    else if (quiz.questions.length : Int) ≤ s.current_question_idx then none
    else quiz.questions.get? s.current_question_idx.toNat

/-- `QuizSession._reset_current_question_state`. -/
def reset_current_question_state (s : QuizSession) : QuizSession :=
  let s1 := { s with answer_counts := initAnswerCounts }
  let s2 :=
    if 0 ≤ s1.current_question_idx then
      { s1 with answer_log := dictInsert s1.answer_log s1.current_question_idx [] }
    else s1
  { s2 with
    players := s2.players.map (fun kv =>
      (kv.1, { kv.2 with answered_current := false })) }

/-- `QuizSession.next_question`: increments the index; past the end moves to
FINISHED and returns `None`, else resets per-question state and returns the
question. -/
def next_question (s : QuizSession) : Option Question × QuizSession :=
  match s.quiz with
  | none => (none, s)
  | some quiz =>
    let s1 := { s with current_question_idx := s.current_question_idx + 1 }
    if (quiz.questions.length : Int) ≤ s1.current_question_idx then
      (none, { s1 with state := QuizState.FINISHED })
    else
      (quiz.questions.get? s1.current_question_idx.toNat,
        reset_current_question_state s1)

/-- Points awarded at close time for one player: flat 1 for a logged answer
equal to the correct index, else 0. -/
def roundPoints (q : Question) (bucket : List (String × Int)) (pid : String) : Int :=
  match dictFind? bucket pid with
  | some a => if a = q.correct_idx then 1 else 0
  | none => 0

/-- The current question's answer-log bucket (empty when absent). -/
def currentBucket (s : QuizSession) : List (String × Int) :=
  (dictFind? s.answer_log s.current_question_idx).getD []

/-- `QuizSession.close_question_scoring`: appends this round's points to every
roster player's `round_scores`. There is no idempotence guard. -/
def close_question_scoring (s : QuizSession) : QuizSession :=
  match s.get_current_question with
  | none => s
  | some q =>
    let bucket := s.currentBucket
    { s with
      players := s.players.map (fun kv =>
        (kv.1, { kv.2 with
          round_scores := kv.2.round_scores ++ [roundPoints q bucket kv.1] })) }

/-- `QuizSession.record_answer`: rejects unknown players, no-current-question,
and duplicate submissions; on acceptance logs the answer (and elapsed time),
bumps the quick tally, sets `answered_current`, and awards `score += 1` for an
in-range correct answer. -/
def record_answer (s : QuizSession) (player_id : String) (answer_idx : Int)
    (elapsed : Option ℚ) : Bool × QuizSession :=
  match dictFind? s.players player_id with
  | none => (false, s)
  | some player =>
    match s.get_current_question with
    | none => (false, s)
    | some question =>
      let qIdx := s.current_question_idx
      let log1 := dictSetdefault s.answer_log qIdx []
      let bucket := (dictFind? log1 qIdx).getD []
      let tlog1 := dictSetdefault s.answer_time_log qIdx []
      let tbucket := (dictFind? tlog1 qIdx).getD []
      let s1 := { s with answer_log := log1, answer_time_log := tlog1 }
      if player.answered_current || (dictFind? bucket player_id).isSome then
        (false, s1)
      else
        let bucket2 := dictInsert bucket player_id answer_idx
        let tlog2 :=
          match elapsed with
          | some e => dictInsert tlog1 qIdx (dictInsert tbucket player_id e)
          | none => tlog1
        let counts2 :=
          match dictFind? s1.answer_counts answer_idx with
          | some c => dictInsert s1.answer_counts answer_idx (c + 1)
          | none => s1.answer_counts
        let playerFlagged := { player with answered_current := true }
        if 0 ≤ answer_idx ∧ answer_idx < (question.options.length : Int) ∧
            answer_idx = question.correct_idx then
          (true,
            { s1 with
              answer_log := dictInsert log1 qIdx bucket2
              answer_time_log := tlog2
              answer_counts := counts2
              players := dictInsert s1.players player_id
                ({ playerFlagged with score := playerFlagged.score + 1 }) })
        else
          (false,
            { s1 with
              answer_log := dictInsert log1 qIdx bucket2
              answer_time_log := tlog2
              answer_counts := counts2
              players := dictInsert s1.players player_id playerFlagged })

/-- Histogram bucket test `0 <= ans < len(counts)` with `len(counts) = 4`. -/
def inRange4 (a : Int) : Bool := decide (0 ≤ a) && decide (a < 4)

/-- Increment slot `i` of the histogram. -/
def bump4 (counts : List Nat) (i : Nat) : List Nat :=
  counts.set i (counts.getD i 0 + 1)

/-- `QuizSession.get_answer_counts`: recomputes the histogram strictly from the
answer-log bucket; out-of-range recorded answers are skipped. -/
def get_answer_counts (s : QuizSession) (question_idx : Option Int) : List Nat :=
  let qi := question_idx.getD s.current_question_idx
  if qi < 0 then [0, 0, 0, 0]
  else
    let bucket := (dictFind? s.answer_log qi).getD []
    bucket.foldl
      (fun counts kv => if inRange4 kv.2 then bump4 counts kv.2.toNat else counts)
      [0, 0, 0, 0]

end QuizSession

/-- `create_session` (fresh `QuizSession`, before the host is added as a
player by the `session.create` handler). -/
def freshSession (sid host : String) (pw : Option String) : QuizSession :=
  { id := sid, host_id := host, password := pw }

/-! ### App-layer handlers (from `src/server/app.py`) -/

/-- The generic inbound-message liveness refresh (`ws_endpoint`): any message
from a joined player updates `last_seen` only. -/
def refresh_last_seen (s : QuizSession) (pid : String) (now : ℚ) : QuizSession :=
  match dictFind? s.players pid with
  | none => s
  | some p =>
    { s with players := dictInsert s.players pid { p with last_seen := some now } }

/-- The `pong` branch of `ws_endpoint`: updates `last_pong`, `last_seen` and
`latency_ms = (now - ts) * 500`; the player's `status` is not touched. -/
def handle_pong (s : QuizSession) (pid : String) (now ts : ℚ) : QuizSession :=
  match dictFind? s.players pid with
  | none => s
  | some p =>
    let p2 : Player :=
      { p with
        last_pong := some now
        last_seen := some now
        latency_ms := some ((now - ts) * 500) }
    { s with players := dictInsert s.players pid p2 }

/-- Full processing of an inbound `pong` frame: the generic `last_seen`
refresh followed by the `pong` branch. -/
def process_pong (s : QuizSession) (pid : String) (now ts : ℚ) : QuizSession :=
  handle_pong (refresh_last_seen s pid now) pid now ts

/-- `broadcast` (`app.py`): attempts a send on every connection; failing
connections are collected and popped from `connections` afterwards. Players
are not removed. `fails ws` says whether sending on handle `ws` raises.
Returns the ids that received the message and the updated session. -/
def broadcast (s : QuizSession) (fails : Nat → Bool) : List String × QuizSession :=
  let dead := (s.connections.filter (fun kv => fails kv.2)).map Prod.fst
  let delivered := (s.connections.filter (fun kv => !fails kv.2)).map Prod.fst
  let conns := dead.foldl (fun cs pid => dictErase cs pid) s.connections
  (delivered, { s with connections := conns })

/-- The `player.kick` branch of `ws_endpoint`: when the target has a live
connection, it is notified/closed, removed via `remove_player`, and a lobby
update is broadcast. No kicked-set is maintained. -/
def handle_player_kick (s : QuizSession) (kid : String) (fails : Nat → Bool) :
    QuizSession :=
  if (dictFind? s.connections kid).isSome then
    (broadcast (s.remove_player kid) fails).2
  else s

/-! ### Concrete scenario states (spec §8 scenario, plus probe states) -/

/-- The single demo question; the correct option is index 2. -/
def demoQuestion : Question :=
  { prompt := "Q", options := ["A", "B", "C", "D"], correct_idx := 2, id := "q1" }

/-- The demo quiz with one question. -/
def demoQuiz : Quiz := { title := "demo quiz", questions := [demoQuestion], quiz_id := "z1" }

/-- Session "demo" created by host `h1` (host registered as a player). -/
def demoSession0 : QuizSession := ((freshSession "demo" "h1" none).add_player "h1" 1).2

/-- ... after student `s1` joins. -/
def demoSessionJoined : QuizSession := (demoSession0.add_player "s1" 2).2

/-- ... after the demo quiz is loaded. -/
def demoSessionLoaded : QuizSession := demoSessionJoined.load_quiz demoQuiz

/-- ... after `quiz.start`. -/
def demoSessionStarted : QuizSession := demoSessionLoaded.start_quiz.2

/-- ... after the first `next_question` (question 0 open). -/
def demoSessionQ0 : QuizSession := demoSessionStarted.next_question.2

/-- ... after `s1` submits the correct answer (index 2) at elapsed 5 s. -/
def demoSessionAnswered : QuizSession := (demoSessionQ0.record_answer "s1" 2 (some 5)).2

/-- The `s1` player record inside `demoSessionAnswered`. -/
def demoPlayerS1Answered : Player :=
  { player_id := "s1", score := 1, answered_current := true }

/-- ... after `question.end` runs `close_question_scoring`. -/
def demoSessionClosed : QuizSession := demoSessionAnswered.close_question_scoring

/-- The `s1` player record inside `demoSessionClosed`. -/
def demoPlayerS1Closed : Player :=
  { player_id := "s1", score := 1, answered_current := true, round_scores := [1] }

/-- ... after a further `next_question` exhausts the quiz (FINISHED). -/
def demoSessionFinished : QuizSession := demoSessionClosed.next_question.2

/-- ... after the host presses start again on the finished session. -/
def demoSessionRestarted : QuizSession := demoSessionFinished.start_quiz.2

/-- Question 0 open and `s1` submits with the `answer.submit` default
`answer_idx = -1` (field missing) and no elapsed time. -/
def outOfRangeSession : QuizSession := (demoSessionQ0.record_answer "s1" (-1) none).2

/-- `demoSessionJoined` with every player demoted to status "stale". -/
def staleDemoSession : QuizSession :=
  { demoSessionJoined with
    players := demoSessionJoined.players.map (fun kv => (kv.1, { kv.2 with status := "stale" })) }

/-- Broadcast over `demoSessionJoined` where the send on `s1`'s socket
(handle 2) raises. -/
def lossyBroadcastResult : List String × QuizSession :=
  broadcast demoSessionJoined (fun w => w == 2)

/-- `demoSessionJoined` after the host kicks `s1` (all sends succeed). -/
def kickedDemoSession : QuizSession :=
  handle_player_kick demoSessionJoined "s1" (fun _ => false)

/-- The `s1` record inside `staleDemoSession`. -/
def stalePlayerS1 : Player := { player_id := "s1", status := "stale" }

/-! ### Lemmas about the dict model -/

theorem dictFind?_insert_self {α β : Type} [DecidableEq α]
    (l : List (α × β)) (k : α) (v : β) :
    dictFind? (dictInsert l k v) k = some v := by
  induction l with
  | nil => simp [dictInsert, dictFind?]
  | cons kv rest ih =>
    by_cases h : kv.1 = k
    · simp [dictInsert, dictFind?, h]
    · simp [dictInsert, dictFind?, h, ih]

theorem dictFind?_insert_of_ne {α β : Type} [DecidableEq α]
    (l : List (α × β)) (k k' : α) (v : β) (h : k' ≠ k) :
    dictFind? (dictInsert l k v) k' = dictFind? l k' := by
  induction l with
  | nil => simp [dictInsert, dictFind?, Ne.symm h]
  | cons kv rest ih =>
    by_cases hk : kv.1 = k
    · simp [dictInsert, dictFind?, hk, Ne.symm h]
    · simp only [dictInsert, hk, if_false, dictFind?]
      by_cases hk' : kv.1 = k'
      · simp [hk']
      · simp [hk', ih]

theorem dictFind?_append {α β : Type} [DecidableEq α]
    (l₁ l₂ : List (α × β)) (k : α) (h : dictFind? l₁ k = none) :
    dictFind? (l₁ ++ l₂) k = dictFind? l₂ k := by
  induction l₁ with
  | nil => simp
  | cons kv rest ih =>
    by_cases hk : kv.1 = k
    · simp [dictFind?, hk] at h
    · simp only [dictFind?, hk, if_false] at h
      simp [dictFind?, hk, ih h]

theorem dictSetdefault_of_isSome {α β : Type} [DecidableEq α]
    (l : List (α × β)) (k : α) (v : β) (h : (dictFind? l k).isSome) :
    dictSetdefault l k v = l := by
  unfold dictSetdefault
  cases hf : dictFind? l k with
  | none => rw [hf] at h; simp at h
  | some w => simp

theorem dictFind?_setdefault_self {α β : Type} [DecidableEq α]
    (l : List (α × β)) (k : α) (v : β) :
    dictFind? (dictSetdefault l k v) k = some ((dictFind? l k).getD v) := by
  unfold dictSetdefault
  cases hf : dictFind? l k with
  | none =>
    rw [dictFind?_append l [(k, v)] k hf]
    simp [dictFind?]
  | some w => simp [hf]

theorem dictFind?_setdefault_of_ne {α β : Type} [DecidableEq α]
    (l : List (α × β)) (k k' : α) (v : β) (h : k' ≠ k) :
    dictFind? (dictSetdefault l k v) k' = dictFind? l k' := by
  unfold dictSetdefault
  cases hf : dictFind? l k with
  | none =>
    induction l with
    | nil => simp [dictFind?, Ne.symm h]
    | cons kv rest ih =>
      by_cases hk : kv.1 = k
      · simp [dictFind?, hk] at hf
      · simp only [dictFind?, hk, if_false] at hf
        by_cases hk' : kv.1 = k'
        · simp [dictFind?, hk']
        · simp only [List.cons_append, dictFind?, hk', if_false]
          exact ih hf
  | some w => simp

theorem dictFind?_map_value {α β γ : Type} [DecidableEq α]
    (l : List (α × β)) (f : α → β → γ) (k : α) :
    dictFind? (l.map (fun kv => (kv.1, f kv.1 kv.2))) k = (dictFind? l k).map (f k) := by
  induction l with
  | nil => simp [dictFind?]
  | cons kv rest ih =>
    by_cases hk : kv.1 = k
    · subst hk; simp [dictFind?]
    · simp [dictFind?, hk, ih]

theorem dictFind?_eq_none_iff {α β : Type} [DecidableEq α]
    (l : List (α × β)) (k : α) :
    dictFind? l k = none ↔ k ∉ l.map Prod.fst := by
  induction l with
  | nil => simp [dictFind?]
  | cons kv rest ih =>
    by_cases hk : kv.1 = k
    · simp [dictFind?, hk]
    · have hk2 : k ≠ kv.1 := Ne.symm hk
      simp only [dictFind?, hk, if_false, List.map_cons, List.mem_cons]
      rw [ih]
      constructor
      · intro hmem
        intro hor
        rcases hor with h1 | h2
        · exact hk2 h1
        · exact hmem h2
      · intro hall hmem
        exact hall (Or.inr hmem)

theorem dictErase_find?_self {α β : Type} [DecidableEq α]
    (l : List (α × β)) (k : α) :
    dictFind? (dictErase l k) k = none := by
  induction l with
  | nil => simp [dictErase, dictFind?]
  | cons kv rest ih =>
    by_cases hk : kv.1 = k
    · simpa [dictErase, List.filter, hk] using ih
    · simpa [dictErase, List.filter, hk, dictFind?] using ih

theorem dictInsert_keys_of_absent {α β : Type} [DecidableEq α]
    (l : List (α × β)) (k : α) (v : β) (h : dictFind? l k = none) :
    (dictInsert l k v).map Prod.fst = l.map Prod.fst ++ [k] := by
  induction l with
  | nil => simp [dictInsert]
  | cons kv rest ih =>
    by_cases hk : kv.1 = k
    · simp [dictFind?, hk] at h
    · simp only [dictFind?, hk, if_false] at h
      simp [dictInsert, hk, ih h]

/-! ### General lemmas about the session operations -/

theorem get_current_question_congr (s t : QuizSession)
    (hq : t.quiz = s.quiz) (hi : t.current_question_idx = s.current_question_idx) :
    t.get_current_question = s.get_current_question := by
  unfold QuizSession.get_current_question
  rw [hq, hi]

theorem close_question_scoring_quiz (s : QuizSession) :
    s.close_question_scoring.quiz = s.quiz := by
  unfold QuizSession.close_question_scoring
  cases hq : s.get_current_question <;> simp

theorem close_question_scoring_idx (s : QuizSession) :
    s.close_question_scoring.current_question_idx = s.current_question_idx := by
  unfold QuizSession.close_question_scoring
  cases hq : s.get_current_question <;> simp

theorem close_question_scoring_log (s : QuizSession) :
    s.close_question_scoring.answer_log = s.answer_log := by
  unfold QuizSession.close_question_scoring
  cases hq : s.get_current_question <;> simp

theorem close_question_scoring_bucket (s : QuizSession) :
    s.close_question_scoring.currentBucket = s.currentBucket := by
  unfold QuizSession.currentBucket
  rw [close_question_scoring_log, close_question_scoring_idx]

theorem close_question_scoring_find (s : QuizSession) (q : Question)
    (hq : s.get_current_question = some q) (pid : String) (p : Player)
    (hp : dictFind? s.players pid = some p) :
    dictFind? s.close_question_scoring.players pid =
      some { p with round_scores :=
        p.round_scores ++ [QuizSession.roundPoints q s.currentBucket pid] } := by
  unfold QuizSession.close_question_scoring
  rw [hq]
  simp only
  have hmap := dictFind?_map_value s.players
    (fun k v => { v with round_scores :=
      v.round_scores ++ [QuizSession.roundPoints q s.currentBucket k] }) pid
  rw [hp] at hmap
  exact hmap

/-! ### C1 and C2 -/

/-- C1: the spec claims time-decayed scoring
`points = max(minPoints, (remainingTime/totalDuration) * maxPoints)` with the
scenario yielding score 7.5 and `roundScores = [7.5]`. The code instead awards
a flat 1 point: in the demo scenario `s1` ends with `score = 1` and
`round_scores = [1]`, and `1 ≠ 7.5`, refuting the claim at this input. -/
theorem scenario_score_not_time_decayed :
    (dictFind? demoSessionClosed.players "s1").map Player.round_scores = some [1] ∧
    (dictFind? demoSessionClosed.players "s1").map Player.score = some 1 ∧
    (dictFind? demoSessionClosed.players "s1").map
      (fun p => p.round_scores.map (fun z => (z : ℚ))) ≠ some [(15 : ℚ) / 2] := by
  refine ⟨by decide, by decide, ?_⟩
  intro h
  have h2 : ([(1 : ℚ)] : List ℚ) = [(15 : ℚ) / 2] := by
    have h1 : (dictFind? demoSessionClosed.players "s1").map
        (fun p => p.round_scores.map (fun z => (z : ℚ))) = some [(1 : ℚ)] := by
      have hq : (dictFind? demoSessionClosed.players "s1").map Player.round_scores
          = some [1] := by decide
      cases hf : dictFind? demoSessionClosed.players "s1" with
      | none => rw [hf] at hq; simp at hq
      | some p =>
        rw [hf] at hq
        simp only [Option.map] at hq ⊢
        have hps : p.round_scores = [1] := Option.some.inj hq
        rw [hps]
        norm_num
    rw [h1] at h
    exact Option.some.inj h
  have : (1 : ℚ) = 15 / 2 := (List.cons.injEq _ _ _ _).mp h2 |>.1
  norm_num at this

/-- C1 (amended): closing the question awards a flat 1 point appended to each
roster player's `round_scores` when the player's logged answer equals the
question's correct index, and 0 otherwise; there is no time decay (the
cumulative `score` was already incremented by 1 in `record_answer`). -/
theorem close_question_scoring_awards_flat_point (s : QuizSession) (q : Question)
    (pid : String) (p : Player)
    (hq : s.get_current_question = some q)
    (hp : dictFind? s.players pid = some p) :
    dictFind? s.close_question_scoring.players pid =
      some { p with round_scores :=
        p.round_scores ++ [QuizSession.roundPoints q s.currentBucket pid] } :=
  close_question_scoring_find s q hq pid p hp

/-- Witness for `close_question_scoring_awards_flat_point` on the demo
scenario state. -/
theorem close_question_scoring_awards_flat_point_witness :
    dictFind? demoSessionAnswered.close_question_scoring.players "s1" =
      some { demoPlayerS1Answered with round_scores :=
        demoPlayerS1Answered.round_scores ++
          [QuizSession.roundPoints demoQuestion demoSessionAnswered.currentBucket "s1"] } :=
  close_question_scoring_awards_flat_point demoSessionAnswered demoQuestion "s1"
    demoPlayerS1Answered (by decide) (by decide)

/-- C2: the spec claims `closeQuestionScoring` is idempotent via a
`round_scores`-length guard. No such guard exists: after the demo close
(`s1.round_scores = [1]`, which already covers question 0), a second call
appends again, giving `[1, 1]`, so the second call does change the state. -/
theorem close_question_scoring_second_call_changes :
    (dictFind? demoSessionClosed.close_question_scoring.players "s1").map
      Player.round_scores = some [1, 1] ∧
    (dictFind? demoSessionClosed.players "s1").map Player.round_scores = some [1] ∧
    demoSessionClosed.close_question_scoring ≠ demoSessionClosed := by
  refine ⟨by decide, by decide, by decide⟩

/-- C2 (amended): `close_question_scoring` is not idempotent: whenever a
current question exists, every call appends one more entry to each roster
player's `round_scores`, so a second call for the same question index appends
a second copy of the same round score. -/
theorem close_question_scoring_appends_each_call (s : QuizSession) (q : Question)
    (pid : String) (p : Player)
    (hq : s.get_current_question = some q)
    (hp : dictFind? s.players pid = some p) :
    dictFind? (s.close_question_scoring.close_question_scoring).players pid =
      some { p with round_scores :=
        p.round_scores ++ [QuizSession.roundPoints q s.currentBucket pid]
          ++ [QuizSession.roundPoints q s.currentBucket pid] } := by
  have hq2 : s.close_question_scoring.get_current_question = some q := by
    rw [get_current_question_congr s s.close_question_scoring
      (close_question_scoring_quiz s) (close_question_scoring_idx s)]
    exact hq
  have hp2 := close_question_scoring_find s q hq pid p hp
  have hfinal := close_question_scoring_find s.close_question_scoring q hq2 pid _ hp2
  rw [close_question_scoring_bucket s] at hfinal
  exact hfinal

/-- Witness for `close_question_scoring_appends_each_call` on the demo
scenario state. -/
theorem close_question_scoring_appends_each_call_witness :
    dictFind? (demoSessionAnswered.close_question_scoring.close_question_scoring).players "s1" =
      some { demoPlayerS1Answered with round_scores :=
        demoPlayerS1Answered.round_scores ++
          [QuizSession.roundPoints demoQuestion demoSessionAnswered.currentBucket "s1"]
          ++ [QuizSession.roundPoints demoQuestion demoSessionAnswered.currentBucket "s1"] } :=
  close_question_scoring_appends_each_call demoSessionAnswered demoQuestion "s1"
    demoPlayerS1Answered (by decide) (by decide)

theorem dictFind?_some_mem {α β : Type} [DecidableEq α]
    (l : List (α × β)) (k : α) (v : β) (h : dictFind? l k = some v) : (k, v) ∈ l := by
  induction l with
  | nil => simp [dictFind?] at h
  | cons kv rest ih =>
    by_cases hk : kv.1 = k
    · simp only [dictFind?, hk, if_true] at h
      have hv : kv.2 = v := Option.some.inj h
      cases kv with
      | mk x y =>
        simp only at hk hv
        rw [← hk, ← hv]
        exact List.mem_cons_self _ _
    · simp only [dictFind?, hk, if_false] at h
      exact List.mem_cons.mpr (Or.inr (ih h))

/-! ### C9 and C10 -/

/-- C9: the spec claims `loadQuiz` clears the per-question `roundScores`
history. It does not: after the demo quiz is closed (`s1.round_scores = [1]`)
and the quiz is loaded again, `s1.round_scores` is still `[1]`, not `[]`. -/
theorem load_quiz_keeps_round_scores :
    (dictFind? (demoSessionClosed.load_quiz demoQuiz).players "s1").map
      Player.round_scores = some [1] ∧
    some [1] ≠ some ([] : List Int) := ⟨by decide, by decide⟩

/-- C9 (amended): `load_quiz`, callable from any state, resets
`current_question_idx` to −1, clears the answer log, resets each player's
`score` to 0 and `answered_current` to false, and returns the session to
LOBBY; it does not clear `round_scores` (nor `answer_time_log`). -/
theorem load_quiz_resets_per_quiz_state (s : QuizSession) (quiz : Quiz)
    (pid : String) (p : Player) (hp : dictFind? s.players pid = some p) :
    (s.load_quiz quiz).state = QuizState.LOBBY ∧
    (s.load_quiz quiz).current_question_idx = -1 ∧
    (s.load_quiz quiz).answer_log = [] ∧
    (s.load_quiz quiz).quiz = some quiz ∧
    (s.load_quiz quiz).answer_time_log = s.answer_time_log ∧
    (s.load_quiz quiz).connections = s.connections ∧
    dictFind? (s.load_quiz quiz).players pid =
      some { p with score := 0, answered_current := false } := by
  refine ⟨rfl, rfl, rfl, rfl, rfl, rfl, ?_⟩
  unfold QuizSession.load_quiz
  have hmap := dictFind?_map_value s.players
    (fun _ v => { v with score := 0, answered_current := false }) pid
  rw [hp] at hmap
  exact hmap

/-- Witness for `load_quiz_resets_per_quiz_state` on the closed demo session. -/
theorem load_quiz_resets_per_quiz_state_witness :
    (demoSessionClosed.load_quiz demoQuiz).state = QuizState.LOBBY ∧
    (demoSessionClosed.load_quiz demoQuiz).current_question_idx = -1 ∧
    (demoSessionClosed.load_quiz demoQuiz).answer_log = [] ∧
    (demoSessionClosed.load_quiz demoQuiz).quiz = some demoQuiz ∧
    (demoSessionClosed.load_quiz demoQuiz).answer_time_log =
      demoSessionClosed.answer_time_log ∧
    (demoSessionClosed.load_quiz demoQuiz).connections =
      demoSessionClosed.connections ∧
    dictFind? (demoSessionClosed.load_quiz demoQuiz).players "s1" =
      some { demoPlayerS1Closed with score := 0, answered_current := false } :=
  load_quiz_resets_per_quiz_state demoSessionClosed demoQuiz "s1"
    demoPlayerS1Closed (by decide)

/-- C10: `add_player` is atomic on rejection — when the id is already bound in
the players map (to a record carrying that id, as every reachable state does),
the call returns `None` and the session, including every player record and the
connections map, is exactly unchanged. -/
theorem add_player_rejection_is_atomic (s : QuizSession) (pid : String) (ws : Nat)
    (p : Player) (hp : dictFind? s.players pid = some p) (hid : p.player_id = pid) :
    s.add_player pid ws = (none, s) := by
  unfold QuizSession.add_player
  have hmem : (pid, p) ∈ s.players := dictFind?_some_mem s.players pid p hp
  have hany : s.players.any (fun kv => kv.2.player_id = pid) = true := by
    rw [List.any_eq_true]
    exact ⟨(pid, p), hmem, by simp [hid]⟩
  simp [hany]

/-- Witness for `add_player_rejection_is_atomic`: re-adding `s1` to the
joined demo session is rejected and changes nothing. -/
theorem add_player_rejection_is_atomic_witness :
    demoSessionJoined.add_player "s1" 7 = (none, demoSessionJoined) :=
  add_player_rejection_is_atomic demoSessionJoined "s1" 7
    { player_id := "s1" } (by decide) (by decide)

/-! ### C7 -/

/-- C7: the spec claims any inbound message from a stale player promotes the
player back to "active". It does not: after a late pong from stale `s1`,
the status field is still "stale". -/
theorem stale_player_not_promoted :
    (dictFind? (process_pong staleDemoSession "s1" 10 8).players "s1").map
      Player.status = some "stale" ∧
    some "stale" ≠ some "active" := ⟨by decide, by decide⟩

/-- C7 (amended): any inbound message refreshes `last_seen`, and a `pong`
additionally updates `last_pong` and `latency_ms = (now − ts) * 500`, but the
player's `status` is never changed back: a stale player stays stale. -/
theorem pong_refreshes_liveness_not_status (s : QuizSession) (pid : String)
    (now ts : ℚ) (p : Player) (hp : dictFind? s.players pid = some p) :
    dictFind? (process_pong s pid now ts).players pid =
      some { p with
        last_seen := some now
        last_pong := some now
        latency_ms := some ((now - ts) * 500) } := by
  unfold process_pong refresh_last_seen
  rw [hp]
  dsimp only
  unfold handle_pong
  rw [dictFind?_insert_self]
  dsimp only
  rw [dictFind?_insert_self]

/-- Witness for `pong_refreshes_liveness_not_status` on the stale demo
session; the resulting record still carries `status = "stale"`. -/
theorem pong_refreshes_liveness_not_status_witness :
    dictFind? (process_pong staleDemoSession "s1" 10 8).players "s1" =
      some { stalePlayerS1 with
        last_seen := some 10
        last_pong := some 10
        latency_ms := some ((10 - 8) * 500) } :=
  pong_refreshes_liveness_not_status staleDemoSession "s1" 10 8 stalePlayerS1
    (by decide)

/-! ### C6 -/

/-- C6: the spec claims `kickPlayer` adds the id to a permanent kicked set
and `addPlayer` rejects ids on that set. No kicked set exists: after kicking
`s1` from the demo session, `s1` can immediately re-join under the same id. -/
theorem kicked_player_can_rejoin :
    dictFind? kickedDemoSession.players "s1" = none ∧
    (kickedDemoSession.add_player "s1" 7).1.isSome = true := ⟨by decide, by decide⟩

/-- C6 (amended): the kick handler notifies/closes the target connection and
removes the player and connection from the session, but maintains no kicked
set; `add_player` rejects only ids still active in the roster, so a kicked
player may re-join under the same id. -/
theorem kick_removes_without_kicked_set (s : QuizSession) (kid : String)
    (fails : Nat → Bool) (ws : Nat)
    (hcoh : ∀ kv ∈ s.players, kv.2.player_id = kv.1)
    (hc : (dictFind? s.connections kid).isSome = true) :
    dictFind? (handle_player_kick s kid fails).players kid = none ∧
    ((handle_player_kick s kid fails).add_player kid ws).1.isSome = true := by
  unfold handle_player_kick
  rw [if_pos hc]
  have hplayers : (broadcast (s.remove_player kid) fails).2.players =
      dictErase s.players kid := rfl
  constructor
  · rw [hplayers]
    exact dictErase_find?_self s.players kid
  · unfold QuizSession.add_player
    have hany : ((broadcast (s.remove_player kid) fails).2.players.any
        (fun kv => kv.2.player_id = kid)) = false := by
      rw [hplayers]
      rw [List.any_eq_false]
      intro kv hkv
      have hmem := List.mem_filter.mp hkv
      have hne : kv.1 ≠ kid := by simpa using hmem.2
      have hpidv := hcoh kv hmem.1
      simp [hpidv, hne]
    simp [hany]

/-- Witness for `kick_removes_without_kicked_set` on the joined demo
session: `s1` is removed, then successfully re-added. -/
theorem kick_removes_without_kicked_set_witness :
    dictFind? (handle_player_kick demoSessionJoined "s1" (fun _ => false)).players
      "s1" = none ∧
    ((handle_player_kick demoSessionJoined "s1" (fun _ => false)).add_player
      "s1" 7).1.isSome = true :=
  kick_removes_without_kicked_set demoSessionJoined "s1" (fun _ => false) 7
    (by decide) (by decide)

/-! ### C8 -/

theorem foldl_dictErase_eq_filter {α β : Type} [DecidableEq α]
    (ks : List α) (l : List (α × β)) :
    ks.foldl (fun cs k => dictErase cs k) l =
      l.filter (fun kv => decide (kv.1 ∉ ks)) := by
  induction ks generalizing l with
  | nil => simp
  | cons k ks ih =>
    rw [List.foldl_cons, ih]
    unfold dictErase
    rw [List.filter_filter]
    apply List.filter_congr
    intro kv hkv
    simp only [List.mem_cons, not_or]
    by_cases h1 : kv.1 = k <;> by_cases h2 : kv.1 ∈ ks <;> simp [h1, h2]

/-- C8: the spec claims a failed send during broadcast removes the player from
the session like a clean disconnect. It only pops the connection: when the
send to `s1` (handle 2) fails, `s1`'s connection is dropped but the `s1`
player record remains in the roster. -/
theorem broadcast_failure_keeps_player :
    lossyBroadcastResult.2.connections = [("h1", 1)] ∧
    dictFind? lossyBroadcastResult.2.players "s1" = some { player_id := "s1" } ∧
    lossyBroadcastResult.1 = ["h1"] := ⟨by decide, by decide, by decide⟩

/-- C8 (amended): `broadcast` attempts a send on every live connection; a
failure never escapes the loop: the message is still delivered to every
non-failing connection, the failing connections are popped from the
connections map, and the players map is left untouched (the player is not
removed, unlike on a clean disconnect). -/
theorem broadcast_prunes_connections_only (s : QuizSession) (fails : Nat → Bool)
    (hnd : (s.connections.map Prod.fst).Nodup) :
    (broadcast s fails).2.players = s.players ∧
    (broadcast s fails).1 =
      (s.connections.filter (fun kv => !fails kv.2)).map Prod.fst ∧
    (broadcast s fails).2.connections =
      s.connections.filter (fun kv => !fails kv.2) := by
  refine ⟨rfl, rfl, ?_⟩
  have hconn : (broadcast s fails).2.connections =
      ((s.connections.filter (fun kv => fails kv.2)).map Prod.fst).foldl
        (fun cs pid => dictErase cs pid) s.connections := rfl
  rw [hconn, foldl_dictErase_eq_filter]
  apply List.filter_congr
  intro kv hkv
  by_cases hf : fails kv.2 = true
  · have hin : kv.1 ∈ (s.connections.filter (fun kv => fails kv.2)).map Prod.fst :=
      List.mem_map.mpr ⟨kv, List.mem_filter.mpr ⟨hkv, by simp [hf]⟩, rfl⟩
    simp [hf, hin]
  · have hnot : kv.1 ∉ (s.connections.filter (fun kv => fails kv.2)).map Prod.fst := by
      intro hmem
      rcases List.mem_map.mp hmem with ⟨kv2, hkv2, hfst⟩
      have hkv2mem := (List.mem_filter.mp hkv2).1
      have hkv2fails : fails kv2.2 = true := by
        simpa using (List.mem_filter.mp hkv2).2
      have heq : kv2 = kv := List.inj_on_of_nodup_map hnd hkv2mem hkv hfst
      rw [heq] at hkv2fails
      exact hf hkv2fails
    simp [hf, hnot]

/-- Witness for `broadcast_prunes_connections_only` on the joined demo
session with the send to handle 2 failing. -/
theorem broadcast_prunes_connections_only_witness :
    (broadcast demoSessionJoined (fun w => w == 2)).2.players =
      demoSessionJoined.players ∧
    (broadcast demoSessionJoined (fun w => w == 2)).1 =
      (demoSessionJoined.connections.filter (fun kv => !(kv.2 == 2))).map Prod.fst ∧
    (broadcast demoSessionJoined (fun w => w == 2)).2.connections =
      demoSessionJoined.connections.filter (fun kv => !(kv.2 == 2)) :=
  broadcast_prunes_connections_only demoSessionJoined (fun w => w == 2) (by decide)

/-! ### C4 -/

theorem inRange4_toNat_lt (a : Int) (h : QuizSession.inRange4 a = true) :
    a.toNat < 4 := by
  unfold QuizSession.inRange4 at h
  simp only [Bool.and_eq_true, decide_eq_true_eq] at h
  omega

theorem bump4_length (counts : List Nat) (i : Nat) :
    (QuizSession.bump4 counts i).length = counts.length := by
  simp [QuizSession.bump4]

theorem bump4_sum (counts : List Nat) (i : Nat) (h : i < counts.length) :
    (QuizSession.bump4 counts i).sum = counts.sum + 1 := by
  unfold QuizSession.bump4
  induction counts generalizing i with
  | nil => simp at h
  | cons c rest ih =>
    cases i with
    | zero => simp [List.set]; omega
    | succ n =>
      simp only [List.set, List.sum_cons]
      have hrec := ih n (by simpa using h)
      simp only [List.getD, List.get?_cons_succ] at hrec ⊢
      omega

theorem hist_foldl_sum (bucket : List (String × Int)) (acc : List Nat)
    (hlen : acc.length = 4) :
    (bucket.foldl
      (fun counts kv =>
        if QuizSession.inRange4 kv.2 then QuizSession.bump4 counts kv.2.toNat
        else counts)
      acc).sum =
      acc.sum + (bucket.filter (fun kv => QuizSession.inRange4 kv.2)).length := by
  induction bucket generalizing acc with
  | nil => simp
  | cons kv rest ih =>
    rw [List.foldl_cons]
    by_cases hr : QuizSession.inRange4 kv.2 = true
    · rw [if_pos hr]
      rw [ih (QuizSession.bump4 acc kv.2.toNat) (by rw [bump4_length]; exact hlen)]
      have hlt : kv.2.toNat < acc.length := by
        rw [hlen]; exact inRange4_toNat_lt kv.2 hr
      rw [bump4_sum acc kv.2.toNat hlt]
      simp only [List.filter, hr, List.length_cons]
      omega
    · rw [if_neg hr]
      rw [ih acc hlen]
      simp only [List.filter, Bool.of_not_eq_true hr]

/-- C4: the spec claims the `getAnswerCounts` histogram always sums to the
number of distinct players with an entry in the question's bucket, even for
out-of-range recorded answers such as the default `answer_idx = -1`. It does
not: after `s1`'s missing-field submission is accepted and logged as −1, the
bucket holds one player but the histogram sums to 0. -/
theorem histogram_excludes_out_of_range_answer :
    (outOfRangeSession.get_answer_counts (some 0)).sum = 0 ∧
    ((dictFind? outOfRangeSession.answer_log 0).getD []).map Prod.fst = ["s1"] :=
  ⟨by decide, by decide⟩

/-- C4 (amended): for a non-negative question index, the `get_answer_counts`
histogram sums to the number of bucket entries whose recorded option index is
in range 0..3; entries with an out-of-range recorded index (such as the
default −1) are not counted. -/
theorem get_answer_counts_sum_in_range (s : QuizSession) (qi : Int)
    (h0 : 0 ≤ qi) :
    (s.get_answer_counts (some qi)).sum =
      (((dictFind? s.answer_log qi).getD []).filter
        (fun kv => QuizSession.inRange4 kv.2)).length := by
  unfold QuizSession.get_answer_counts
  simp only [Option.getD_some]
  rw [if_neg (by omega : ¬ qi < 0)]
  rw [hist_foldl_sum _ [0, 0, 0, 0] rfl]
  simp

/-- Witness for `get_answer_counts_sum_in_range` at the out-of-range demo
state and question 0. -/
theorem get_answer_counts_sum_in_range_witness :
    (outOfRangeSession.get_answer_counts (some 0)).sum =
      (((dictFind? outOfRangeSession.answer_log 0).getD []).filter
        (fun kv => QuizSession.inRange4 kv.2)).length :=
  get_answer_counts_sum_in_range outOfRangeSession 0 (by decide)

/-! ### C5 -/

theorem reset_current_question_state_idx (s : QuizSession) :
    s.reset_current_question_state.current_question_idx = s.current_question_idx := by
  unfold QuizSession.reset_current_question_state
  dsimp only
  split <;> rfl

theorem record_answer_idx (s : QuizSession) (pid : String) (a : Int)
    (e : Option ℚ) :
    (s.record_answer pid a e).2.current_question_idx = s.current_question_idx := by
  unfold QuizSession.record_answer
  cases hfp : dictFind? s.players pid with
  | none => rfl
  | some player =>
    dsimp only
    cases hq : s.get_current_question with
    | none => rfl
    | some question =>
      dsimp only
      split
      · rfl
      · split <;> rfl

/-- C5: the spec claims `currentQuestionIndex < len(quiz.questions)` whenever
the state is ACTIVE. Restarting a FINISHED session violates this: after the
one-question demo quiz finishes and the host presses start again, the session
is ACTIVE with index 1 = number of questions. -/
theorem active_session_index_reaches_length :
    demoSessionRestarted.state = QuizState.ACTIVE ∧
    demoSessionRestarted.quiz = some demoQuiz ∧
    demoSessionRestarted.current_question_idx = (demoQuiz.questions.length : Int) :=
  ⟨by decide, by decide, by decide⟩

/-- C5 (amended): within one quiz load `current_question_idx` is monotonically
non-decreasing under every session operation, and whenever `next_question`
returns a question the new index is below the number of questions; but ACTIVE
alone does not bound the index, because `start_quiz` re-invoked on a FINISHED
session re-enters ACTIVE with the index still at `len(questions)`. -/
theorem question_index_monotone (s : QuizSession) :
    (s.current_question_idx ≤ s.start_quiz.2.current_question_idx) ∧
    (s.current_question_idx ≤ s.next_question.2.current_question_idx) ∧
    (s.current_question_idx ≤ s.close_question_scoring.current_question_idx) ∧
    (∀ pid a e, s.current_question_idx ≤
      (s.record_answer pid a e).2.current_question_idx) ∧
    (∀ pid ws, s.current_question_idx ≤
      (s.add_player pid ws).2.current_question_idx) ∧
    (∀ pid, s.current_question_idx ≤
      (s.remove_player pid).current_question_idx) ∧
    (∀ quiz q, s.quiz = some quiz → s.next_question.1 = some q →
      s.next_question.2.current_question_idx < (quiz.questions.length : Int)) := by
  refine ⟨?_, ?_, ?_, ?_, ?_, ?_, ?_⟩
  · unfold QuizSession.start_quiz
    cases s.quiz with
    | none => exact le_refl _
    | some quiz =>
      dsimp only
      split <;> exact le_refl _
  · unfold QuizSession.next_question
    cases s.quiz with
    | none => exact le_refl _
    | some quiz =>
      dsimp only
      split
      · dsimp only; omega
      · rw [reset_current_question_state_idx]
        dsimp only; omega
  · rw [close_question_scoring_idx]
  · intro pid a e
    rw [record_answer_idx]
  · intro pid ws
    unfold QuizSession.add_player
    split <;> exact le_refl _
  · intro pid
    exact le_refl _
  · intro quiz q hquiz hsome
    unfold QuizSession.next_question at hsome ⊢
    rw [hquiz] at hsome ⊢
    dsimp only at hsome ⊢
    by_cases hc : (quiz.questions.length : Int) ≤ s.current_question_idx + 1
    · rw [if_pos hc] at hsome
      simp at hsome
    · rw [if_neg hc] at hsome ⊢
      dsimp only
      rw [reset_current_question_state_idx]
      dsimp only
      omega

/-- Witness for `question_index_monotone` at the started demo session; the
first `next_question` returns the demo question and lands strictly below the
question count, while the index does not decrease. -/
theorem question_index_monotone_witness :
    (demoSessionStarted.current_question_idx ≤
      demoSessionStarted.next_question.2.current_question_idx) ∧
    demoSessionStarted.next_question.2.current_question_idx <
      (demoQuiz.questions.length : Int) :=
  ⟨(question_index_monotone demoSessionStarted).2.1,
   (question_index_monotone demoSessionStarted).2.2.2.2.2.2 demoQuiz demoQuestion
     (by decide) (by decide)⟩

/-! ### C3 -/

theorem record_answer_noop (t : QuizSession) (pid : String) (a : Int)
    (e : Option ℚ) (player : Player)
    (hfp : dictFind? t.players pid = some player)
    (hlog : (dictFind? t.answer_log t.current_question_idx).isSome = true)
    (htlog : (dictFind? t.answer_time_log t.current_question_idx).isSome = true)
    (hg : (player.answered_current ||
      (dictFind? ((dictFind? t.answer_log t.current_question_idx).getD [])
        pid).isSome) = true) :
    t.record_answer pid a e = (false, t) := by
  unfold QuizSession.record_answer
  rw [hfp]
  cases hq : t.get_current_question with
  | none => rfl
  | some question =>
    dsimp only
    rw [dictSetdefault_of_isSome _ _ _ hlog, dictSetdefault_of_isSome _ _ _ htlog]
    simp only [hg]
    rfl

theorem record_answer_rejected_dup (s : QuizSession) (pid : String) (a : Int)
    (e : Option ℚ) (player : Player) (question : Question)
    (hfp : dictFind? s.players pid = some player)
    (hq : s.get_current_question = some question)
    (hg : (player.answered_current ||
      (dictFind? ((dictFind? (dictSetdefault s.answer_log s.current_question_idx [])
        s.current_question_idx).getD []) pid).isSome) = true) :
    s.record_answer pid a e =
      (false,
        { s with
          answer_log := dictSetdefault s.answer_log s.current_question_idx []
          answer_time_log :=
            dictSetdefault s.answer_time_log s.current_question_idx [] }) := by
  unfold QuizSession.record_answer
  rw [hfp, hq]
  dsimp only
  simp only [hg]
  rfl

theorem record_answer_accepted_shape (s : QuizSession) (pid : String) (a : Int)
    (e : Option ℚ) (player : Player) (question : Question)
    (hfp : dictFind? s.players pid = some player)
    (hq : s.get_current_question = some question)
    (hg : (player.answered_current ||
      (dictFind? ((dictFind? (dictSetdefault s.answer_log s.current_question_idx [])
        s.current_question_idx).getD []) pid).isSome) = false) :
    ∃ pNew : Player, pNew.answered_current = true ∧
      (s.record_answer pid a e).2.players = dictInsert s.players pid pNew ∧
      (s.record_answer pid a e).2.answer_log =
        dictInsert (dictSetdefault s.answer_log s.current_question_idx [])
          s.current_question_idx
          (dictInsert
            ((dictFind? (dictSetdefault s.answer_log s.current_question_idx [])
              s.current_question_idx).getD []) pid a) ∧
      (dictFind? (s.record_answer pid a e).2.answer_time_log
        s.current_question_idx).isSome = true := by
  unfold QuizSession.record_answer
  rw [hfp, hq]
  dsimp only
  simp only [hg]
  simp only [Bool.false_eq_true, if_false]
  by_cases hc : 0 ≤ a ∧ a < (question.options.length : Int) ∧
      a = question.correct_idx
  · rw [if_pos hc]
    refine ⟨{ player with answered_current := true, score := player.score + 1 },
      rfl, rfl, rfl, ?_⟩
    cases e with
    | some q2 =>
      dsimp only
      rw [dictFind?_insert_self]
      rfl
    | none =>
      dsimp only
      rw [dictFind?_setdefault_self]
      rfl
  · rw [if_neg hc]
    refine ⟨{ player with answered_current := true }, rfl, rfl, rfl, ?_⟩
    cases e with
    | some q2 =>
      dsimp only
      rw [dictFind?_insert_self]
      rfl
    | none =>
      dsimp only
      rw [dictFind?_setdefault_self]
      rfl

theorem bucketKeys_setdefault_nodup {β : Type}
    (l : List (Int × List (String × β))) (k qi : Int)
    (h : (((dictFind? l qi).getD []).map Prod.fst).Nodup) :
    (((dictFind? (dictSetdefault l k []) qi).getD []).map Prod.fst).Nodup := by
  by_cases he : qi = k
  · subst he
    rw [dictFind?_setdefault_self]
    simpa using h
  · rw [dictFind?_setdefault_of_ne _ _ _ _ he]
    exact h

/-- C3: duplicate submissions cannot double-count: a second `record_answer`
call for the same player (and hence the same open question) is rejected with
the rejection value `False` and leaves the session — answer log, scores,
histogram — exactly unchanged; moreover one `record_answer` call preserves
the at-most-one-entry-per-player shape (key uniqueness) of every answer-log
bucket. -/
theorem record_answer_duplicate_rejected (s : QuizSession) (pid : String)
    (a₁ a₂ : Int) (e₁ e₂ : Option ℚ) :
    ((s.record_answer pid a₁ e₁).2.record_answer pid a₂ e₂) =
      (false, (s.record_answer pid a₁ e₁).2) ∧
    (∀ qi : Int,
      (((dictFind? s.answer_log qi).getD []).map Prod.fst).Nodup →
      (((dictFind? (s.record_answer pid a₁ e₁).2.answer_log qi).getD
        []).map Prod.fst).Nodup) := by
  cases hfp : dictFind? s.players pid with
  | none =>
    have hfirst : s.record_answer pid a₁ e₁ = (false, s) := by
      unfold QuizSession.record_answer
      rw [hfp]
    rw [hfirst]
    constructor
    · show s.record_answer pid a₂ e₂ = (false, s)
      unfold QuizSession.record_answer
      rw [hfp]
    · intro qi h
      exact h
  | some player =>
    cases hq : s.get_current_question with
    | none =>
      have hfirst : s.record_answer pid a₁ e₁ = (false, s) := by
        unfold QuizSession.record_answer
        rw [hfp, hq]
      rw [hfirst]
      constructor
      · show s.record_answer pid a₂ e₂ = (false, s)
        unfold QuizSession.record_answer
        rw [hfp, hq]
      · intro qi h
        exact h
    | some question =>
      have hbeq : (dictFind? (dictSetdefault s.answer_log s.current_question_idx [])
          s.current_question_idx).getD [] =
          (dictFind? s.answer_log s.current_question_idx).getD [] := by
        rw [dictFind?_setdefault_self]
        rfl
      cases hg : (player.answered_current ||
          (dictFind? ((dictFind? (dictSetdefault s.answer_log
            s.current_question_idx []) s.current_question_idx).getD [])
            pid).isSome) with
      | true =>
        have hfirst := record_answer_rejected_dup s pid a₁ e₁ player question hfp hq hg
        rw [hfirst]
        constructor
        · apply record_answer_noop _ pid a₂ e₂ player
          · exact hfp
          · rw [dictFind?_setdefault_self]
            rfl
          · rw [dictFind?_setdefault_self]
            rfl
          · show (player.answered_current ||
              (dictFind? ((dictFind? (dictSetdefault s.answer_log
                s.current_question_idx []) s.current_question_idx).getD [])
                pid).isSome) = true
            exact hg
        · intro qi h
          exact bucketKeys_setdefault_nodup s.answer_log s.current_question_idx qi h
      | false =>
        obtain ⟨pNew, hpflag, hplayers, hlog, htlog⟩ :=
          record_answer_accepted_shape s pid a₁ e₁ player question hfp hq hg
        constructor
        · apply record_answer_noop _ pid a₂ e₂ pNew
          · rw [hplayers]
            exact dictFind?_insert_self _ _ _
          · rw [record_answer_idx, hlog, dictFind?_insert_self]
            rfl
          · rw [record_answer_idx]
            exact htlog
          · rw [hpflag]
            simp
        · intro qi h
          rw [hlog]
          by_cases he : qi = s.current_question_idx
          · subst he
            rw [dictFind?_insert_self]
            have hnone : dictFind?
                ((dictFind? s.answer_log s.current_question_idx).getD []) pid = none := by
              rw [hbeq] at hg
              rcases Bool.or_eq_false_iff.mp hg with ⟨hg1, hg2⟩
              cases hfind : dictFind?
                  ((dictFind? s.answer_log s.current_question_idx).getD []) pid with
              | none => rfl
              | some w =>
                rw [hfind] at hg2
                simp at hg2
            have hkeys : (dictInsert
                ((dictFind? (dictSetdefault s.answer_log s.current_question_idx [])
                  s.current_question_idx).getD []) pid a₁).map Prod.fst =
                ((dictFind? s.answer_log s.current_question_idx).getD []).map
                  Prod.fst ++ [pid] := by
              rw [hbeq]
              exact dictInsert_keys_of_absent _ pid a₁ hnone
            rw [Option.getD_some, hkeys]
            rw [List.nodup_append]
            refine ⟨h, List.nodup_singleton pid, ?_⟩
            intro x hx hx2
            have hxpid : x = pid := by simpa using hx2
            subst hxpid
            exact (dictFind?_eq_none_iff _ _).mp hnone hx
          · rw [dictFind?_insert_of_ne _ _ _ _ he,
              dictFind?_setdefault_of_ne _ _ _ _ he]
            exact h

/-- Witness for `record_answer_duplicate_rejected`: after `s1`'s accepted
answer, the duplicate submission is rejected without touching the session,
and the question-0 bucket keys stay duplicate-free. -/
theorem record_answer_duplicate_rejected_witness :
    ((demoSessionQ0.record_answer "s1" 2 (some 5)).2.record_answer "s1" 1
      (some 6)) = (false, (demoSessionQ0.record_answer "s1" 2 (some 5)).2) ∧
    (((dictFind? (demoSessionQ0.record_answer "s1" 2 (some 5)).2.answer_log
      0).getD []).map Prod.fst).Nodup :=
  ⟨(record_answer_duplicate_rejected demoSessionQ0 "s1" 2 1 (some 5) (some 6)).1,
   (record_answer_duplicate_rejected demoSessionQ0 "s1" 2 1 (some 5) (some 6)).2
     0 (by decide)⟩
